import Mathlib

/-!
Verification development for the Archon PSO server core
(`util/util.go`, `login_server/character.go` and the packet-sending half of
the patch/login `packets.go`).  Byte buffers are modelled as `List Nat`
(each element a byte value `< 2^8` at the places the Go types force it),
machine-integer arithmetic is made explicit with `% 2^16` / `% 2^32`,
and fallible operations return `Except`/`Option` or a dedicated outcome
constructor.  Network reads, the stream cipher and the database are
external to the modelled code and enter as explicit parameters (a list of
read results, decryption functions, and an oracle environment).
-/

set_option maxRecDepth 40000

namespace Archon

/-- Little-endian 16-bit read at `off`, as `binary.Read(..., LittleEndian, &u16)`
does on the first two bytes it is given. -/
def readU16 (l : List Nat) (off : Nat) : Nat :=
  l.getD off 0 + 2 ^ 8 * l.getD (off + 1) 0

/-- Little-endian 32-bit read at `off`. -/
def readU32 (l : List Nat) (off : Nat) : Nat :=
  readU16 l off + 2 ^ 16 * readU16 l (off + 2)

/-- Error message of `util.GetPacketSize` (Go: `getSize(): data must be at
least two bytes`). -/
def getSizeErr : String := "getSize(): data must be at least two bytes"

/-- `util.GetPacketSize`: extract the packet length from the first two bytes
of `data`; error iff fewer than two bytes are available. -/
def GetPacketSize (data : List Nat) : Except String Nat :=
  if data.length < 2 then Except.error getSizeErr
  else Except.ok (readU16 data 0)

/-- Body of the `util.Utf8To16` conversion loop: each output element is
`uint16(src[i*2] | (src[(i*2)+1] << 8))`.  `src` has element type `uint8`,
so the Go shift `src[(i*2)+1] << 8` is performed in `uint8` — modelled by
the explicit `% 2 ^ 8` — and the high byte is discarded. -/
def utf8To16Pairs : List Nat → List Nat
  | a :: b :: rest => ((a ||| ((b <<< 8) % 2 ^ 8)) % 2 ^ 16) :: utf8To16Pairs rest
  | [a] => [((a ||| ((0 <<< 8) % 2 ^ 8)) % 2 ^ 16)]
  | [] => []

/-- `util.Utf8To16`: appends one zero byte when the length is odd, then maps
consecutive byte pairs through the loop body. -/
def Utf8To16 (src : List Nat) : List Nat :=
  let src' := if src.length % 2 ≠ 0 then src ++ [0] else src
  utf8To16Pairs src'

/-- `util.ExpandUtf16`: `expanded[2i] = uint8(v)`, `expanded[2i+1] =
uint8((v >> 8) & 0xFF)`. -/
def ExpandUtf16 (src : List Nat) : List Nat :=
  src.flatMap (fun v => [v % 2 ^ 8, ((v >>> 8) &&& 0xFF) % 2 ^ 8])

/-- `util.StripPadding`: scan from the last index downward and return
`b[:i+1]` at the first non-zero byte; if every byte is zero, return `b`
itself.  The downward scan is expressed through `reverse`/`dropWhile`. -/
def StripPadding (b : List Nat) : List Nat :=
  let t := b.reverse.dropWhile (fun x => x == 0)
  if t = [] then b else t.reverse

/-- `util.ZeroSlice`: set the first `length` bytes of `arr` to zero,
clamping `length` to `len(arr)` first. -/
def ZeroSlice (arr : List Nat) (length : Nat) : List Nat :=
  let n := min length arr.length
  List.replicate n 0 ++ arr.drop n

/-- In-place copy of `src` into `buf` starting at `off`, as `conn.Read`
writing into `recvData[recvSize:]` does (at most `len(buf) - off` bytes are
ever delivered there). -/
def overwrite (buf : List Nat) (off : Nat) (src : List Nat) : List Nat :=
  buf.take off ++ src.take (buf.length - off) ++ buf.drop (off + src.length)

/-- Padding loop of `fixLength`: `for length%hdrSize != 0 { length++;
data = append(data, 0) }` with `length` a `uint16` (increment wraps at
`2 ^ 16`).  The loop is embedded with a fuel of `2 ^ 16`, enough for any
positive `hdrSize` since the `uint16` residues cycle through `0`. -/
def fixLengthPad : List Nat → Nat → Nat → Nat → List Nat × Nat
  | data, length, _, 0 => (data, length)
  | data, length, hdrSize, fuel + 1 =>
    if length % hdrSize ≠ 0 then
      fixLengthPad (data ++ [0]) ((length + 1) % 2 ^ 16) hdrSize fuel
    else (data, length)

/-- `fixLength` (packets.go): pad `data` with zero bytes until `length` is a
multiple of `hdrSize`, then stamp the little-endian length into the first
two bytes (`data[0] = byte(length & 0xFF)`;
`data[1] = byte((length & 0xFF00) >> 8)`, i.e. the second length byte). -/
def fixLength (data : List Nat) (length : Nat) (hdrSize : Nat) : List Nat × Nat :=
  let p := fixLengthPad data length hdrSize (2 ^ 16)
  (((p.1.set 0 (p.2 % 2 ^ 8)).set 1 (p.2 / 2 ^ 8 % 2 ^ 8)), p.2)

/-- One bit step of the reflected CRC-32 (polynomial `0xEDB88320`), as used
by Go's `hash/crc32` IEEE table. -/
def crc32Round (crc : Nat) : Nat :=
  if crc % 2 = 1 then (crc >>> 1) ^^^ 0xEDB88320 else crc >>> 1

/-- Fold one byte into the running CRC-32 state. -/
def crc32Byte (crc b : Nat) : Nat :=
  Nat.iterate crc32Round 8 (crc ^^^ b % 2 ^ 8)

/-- `crc32.ChecksumIEEE`: the standard reflected CRC-32 of `data`. -/
def ChecksumIEEE (data : List Nat) : Nat :=
  (data.foldl crc32Byte 0xFFFFFFFF) ^^^ 0xFFFFFFFF

/-- Size in bytes of the BB packet header (`size u16, type u16, flags u32`).
Modelled from the spec: the constant `BBHeaderSize` lives in the
`packets.go` file absent from `src/`; spec §3 fixes the BB header layout. -/
def BBHeaderSize : Nat := 8

/-- Guildcard/parameter chunk size served per packet.  Modelled from the
spec: `MaxChunkSize = 0x6800` (§6); the Go constant is declared in the
`packets.go` file absent from `src/`. -/
def MaxChunkSize : Nat := 0x6800

/-- Parameter-chunk size used by `loadParameterFiles`.  Modelled from the
spec: the login-server constant `MAX_CHUNK_SIZE` is declared outside
`src/`; spec §6 gives `0x6800` for parameter payloads. -/
def MAX_CHUNK_SIZE : Nat := 0x6800

/-- The nine parameter files `loadParameterFiles` expects. -/
def paramFiles : List String :=
  ["ItemMagEdit.prs", "ItemPMT.prs", "BattleParamEntry.dat",
   "BattleParamEntry_on.dat", "BattleParamEntry_lab.dat",
   "BattleParamEntry_lab_on.dat", "BattleParamEntry_ep4.dat",
   "BattleParamEntry_ep4_on.dat", "PlyLevelTbl.prs"]

/-- The `LoginClient` session state touched by the CHARACTER handlers.
`recvData`/`recvSize`/`packetSize` are the fields declared in `server.go`;
`guildcard`, `flag`, `gcData` and `gcDataSize` (a `uint16`) are the
login-server client fields `character.go` reads and writes (their
declaration file is not under `src/`; the spec's Session data model, §3,
lists them).  The TCP connection and the two cipher states are external
and are modelled as parameters of the receive loop instead. -/
structure LoginClient where
  recvData : List Nat
  recvSize : Nat
  packetSize : Nat
  guildcard : Nat
  flag : Nat
  gcData : List Nat
  gcDataSize : Nat
  deriving DecidableEq, Repr

/-- The BB packet header `BBPktHeader` (`size u16, type u16, flags u32`,
little-endian).  Modelled from the spec: the struct itself is declared in
the `packets.go` file absent from `src/`; spec §3 fixes the layout.
`PType` stands for the Go field `Type` (a Lean keyword). -/
structure BBPktHeader where
  Size : Nat
  PType : Nat
  Flags : Nat
  deriving DecidableEq, Repr

/-- `StructFromBytes` applied to a `BBPktHeader` target: fill the fields
little-endian from the first eight bytes. -/
def parseBBHeader (l : List Nat) : BBPktHeader :=
  { Size := readU16 l 0, PType := readU16 l 2, Flags := readU32 l 4 }

/-- The guildcard chunk request `GuildcardChunkReqPacket` fields used by
`handleGuildcardChunk`.  Modelled from the spec: the struct is declared in
the `packets.go` file absent from `src/`; §4.E gives its meaning
(`Continue` flag, requested chunk index, a `uint32`). -/
structure GuildcardChunkReqPacket where
  Continue : Nat
  ChunkRequested : Nat
  deriving DecidableEq, Repr

/-- The numeric CHARACTER packet-type constants.  Modelled from the spec:
the constants live in the `packets.go` file absent from `src/`; their
values are "fixed by the original client" (§6) and only their identity is
used by the dispatch switch, so they are carried as parameters. -/
structure PacketTypes where
  LoginType : Nat
  DisconnectType : Nat
  OptionsRequestType : Nat
  CharPreviewReqType : Nat
  ChecksumType : Nat
  GuildcardReqType : Nat
  GuildcardChunkReqType : Nat
  ParameterHeaderReqType : Nat
  ParameterChunkReqType : Nat
  SetFlagType : Nat
  CharPreviewType : Nat
  deriving DecidableEq, Repr

/-- The packet types the CHARACTER switch has a case for, in case order. -/
def handledTypes (tc : PacketTypes) : List Nat :=
  [tc.LoginType, tc.DisconnectType, tc.OptionsRequestType, tc.CharPreviewReqType,
   tc.ChecksumType, tc.GuildcardReqType, tc.GuildcardChunkReqType,
   tc.ParameterHeaderReqType, tc.ParameterChunkReqType, tc.SetFlagType,
   tc.CharPreviewType]

/-- Reply packets the CHARACTER handlers can emit, tagged with the payload
data the corresponding `Send*` function serializes. -/
inductive Reply where
  | security (guildcard : Nat)
  | options (optionData : List Nat)
  | charPreviewNone (slot : Nat)
  | checksumAck (ack : Nat)
  | guildcardHeader (checksum : Nat) (dataLen : Nat)
  | guildcardChunk (chunkNum : Nat) (payload : List Nat)
  | parameterHeader (numEntries : Nat) (entries : List Nat)
  | parameterChunk (chunk : Nat) (payload : List Nat)
  deriving DecidableEq, Repr

/-- Oracle environment for the external collaborators of the CHARACTER
handlers: database results (`VerifyAccount`, key config, character row,
guildcard rows serialized by `BytesFromStruct`), the reflection-parsed
request structs whose layouts live outside `src/`, and the process-scope
parameter cache. -/
structure Env where
  verifyAccount : Except String Nat
  keyConfig : Except String (List Nat)
  charPreviewRow : Except String (Option Unit)
  slotReq : Nat
  gcBlob : Except String (List Nat)
  chunkReq : GuildcardChunkReqPacket
  paramHeaderData : List Nat
  paramChunkData : Nat → List Nat

/-- Outcome of `SendGuildcardChunk`: either a chunk packet is sent with the
given payload slice, or the slice expression is out of bounds and the
goroutine faults (Go slice-bounds panic; the deferred handler then closes
the connection).  The embedding takes the slice capacity to be its length. -/
inductive ChunkResult where
  | sent (chunkNum : Nat) (payload : List Nat)
  | fault
  deriving DecidableEq, Repr

/-- `SendGuildcardChunk` (packets.go): `offset := uint16(chunkNum) *
MaxChunkSize` and `remaining := client.gcDataSize - offset` are `uint16`
arithmetic (wrap-around made explicit); if `remaining > MaxChunkSize` the
slice `gcData[offset : offset+MaxChunkSize]` is sent (the high index again
computed in `uint16`), otherwise `gcData[offset:]`. -/
def SendGuildcardChunk (client : LoginClient) (chunkNum : Nat) : ChunkResult :=
  let offset := ((chunkNum % 2 ^ 16) * MaxChunkSize) % 2 ^ 16
  let remaining := (client.gcDataSize + 2 ^ 16 - offset) % 2 ^ 16
  if MaxChunkSize < remaining then
    let hi := (offset + MaxChunkSize) % 2 ^ 16
    if offset ≤ hi ∧ hi ≤ client.gcData.length then
      ChunkResult.sent chunkNum ((client.gcData.drop offset).take (hi - offset))
    else ChunkResult.fault
  else
    if offset ≤ client.gcData.length then
      ChunkResult.sent chunkNum (client.gcData.drop offset)
    else ChunkResult.fault

/-- Result of `processCharacterPacket`: the updated client, the replies
sent, and the returned `error`; or a panic escaping the handler. -/
inductive ProcResult where
  | ok (client : LoginClient) (replies : List Reply) (err : Option String)
  | panicked (replies : List Reply)
  deriving DecidableEq, Repr

/-- `handleCharLogin`: `VerifyAccount` (login.go, outside `src/`; spec
§4.E: re-verify credentials, then `SendSecurity`) either fails, ending the
session with its error, or yields the account's guildcard which is stored
on the client and echoed in the security packet. -/
def handleCharLogin (env : Env) (client : LoginClient) : ProcResult :=
  match env.verifyAccount with
  | Except.error e => ProcResult.ok client [] (some e)
  | Except.ok gc =>
    ProcResult.ok { client with guildcard := gc } [Reply.security gc] none

/-- `handleKeyConfig`: the 420-byte key config is loaded from the database
(defaulted and inserted when absent — folded into the oracle) and sent via
`SendOptions`; a database error ends the session. -/
def handleKeyConfig (env : Env) (client : LoginClient) : ProcResult :=
  match env.keyConfig with
  | Except.error e => ProcResult.ok client [] (some e)
  | Except.ok optionData => ProcResult.ok client [Reply.options optionData] none

/-- `handleCharacterSelect`: look up the character row for the requested
slot; no row sends the 0xE4 ack (`SendCharPreviewNone`), a found row is a
TODO stub in the source (no reply), a database error ends the session. -/
def handleCharacterSelect (env : Env) (client : LoginClient) : ProcResult :=
  match env.charPreviewRow with
  | Except.error e => ProcResult.ok client [] (some e)
  | Except.ok none => ProcResult.ok client [Reply.charPreviewNone env.slotReq] none
  | Except.ok (some _) => ProcResult.ok client [] none

/-- `handleGuildcardDataStart`: build the guildcard blob (database rows
serialized through `BytesFromStruct` — supplied by the oracle), stage it on
the client with `gcDataSize = uint16(size)`, and send the guildcard header
carrying `crc32.ChecksumIEEE` of the blob. -/
def handleGuildcardDataStart (env : Env) (client : LoginClient) : ProcResult :=
  match env.gcBlob with
  | Except.error e => ProcResult.ok client [] (some e)
  | Except.ok blob =>
    let checksum := ChecksumIEEE blob
    let client' := { client with gcData := blob, gcDataSize := blob.length % 2 ^ 16 }
    ProcResult.ok client'
      [Reply.guildcardHeader checksum (blob.length % 2 ^ 16)] none

/-- `handleGuildcardChunk`: if the request's `Continue` field is not `0x01`
no chunk is sent (the handler just returns); otherwise the requested chunk
is served by `SendGuildcardChunk`. -/
def handleGuildcardChunk (client : LoginClient) (req : GuildcardChunkReqPacket) :
    Option ChunkResult :=
  if req.Continue ≠ 0x01 then none
  else some (SendGuildcardChunk client req.ChunkRequested)

/-- `processCharacterPacket`: parse the BB header from the first eight
buffer bytes and dispatch on the type; the `default` arm only logs.  The Go
`switch` is an ordered comparison against distinct constants. -/
def processCharacterPacket (tc : PacketTypes) (env : Env) (client : LoginClient) :
    ProcResult :=
  let pktHeader := parseBBHeader (client.recvData.take BBHeaderSize)
  if pktHeader.PType = tc.LoginType then handleCharLogin env client
  else if pktHeader.PType = tc.DisconnectType then ProcResult.ok client [] none
  else if pktHeader.PType = tc.OptionsRequestType then handleKeyConfig env client
  else if pktHeader.PType = tc.CharPreviewReqType then handleCharacterSelect env client
  else if pktHeader.PType = tc.ChecksumType then
    ProcResult.ok client [Reply.checksumAck 1] none
  else if pktHeader.PType = tc.GuildcardReqType then handleGuildcardDataStart env client
  else if pktHeader.PType = tc.GuildcardChunkReqType then
    match handleGuildcardChunk client env.chunkReq with
    | none => ProcResult.ok client [] none
    | some (ChunkResult.sent n p) =>
      ProcResult.ok client [Reply.guildcardChunk n p] none
    | some ChunkResult.fault => ProcResult.panicked []
  else if pktHeader.PType = tc.ParameterHeaderReqType then
    ProcResult.ok client [Reply.parameterHeader paramFiles.length env.paramHeaderData] none
  else if pktHeader.PType = tc.ParameterChunkReqType then
    let pkt := parseBBHeader (client.recvData.take BBHeaderSize)
    ProcResult.ok client
      [Reply.parameterChunk pkt.Flags (env.paramChunkData pkt.Flags)] none
  else if pktHeader.PType = tc.SetFlagType then
    ProcResult.ok { client with flag := readU32 client.recvData BBHeaderSize } [] none
  else if pktHeader.PType = tc.CharPreviewType then ProcResult.ok client [] none
  else ProcResult.ok client [] none

/-- Outcome of one of the two read loops of `handleCharacterClient`:
the peer closed (zero-byte read / EOF), a panic was raised, or the loop
condition became false and the session continues with the remaining
read results. -/
inductive RecvOutcome where
  | closed
  | faulted
  | ready (st : LoginClient) (rest : List (List Nat))
  deriving Repr

/-- Header read loop of `handleCharacterClient`: read until
`recvSize ≥ BBHeaderSize`; a zero-byte read or EOF closes the connection.
When the read crosses the header boundary, `recvData[:BBHeaderSize]` is
decrypted in place (`hdrDec` is the client-cipher decryption of those eight
bytes) and `GetPacketSize(recvData[:2])` sets `packetSize` (its error is a
panic).  `reads` is the sequence of byte chunks `conn.Read` delivers;
`none` means the loop is still blocked on the socket. -/
def recvHeaderLoop (hdrDec : List Nat → List Nat) :
    List (List Nat) → LoginClient → Option RecvOutcome
  | reads, st =>
    if BBHeaderSize ≤ st.recvSize then some (RecvOutcome.ready st reads)
    else
      match reads with
      | [] => none
      | r :: rest =>
        if r.length = 0 then some RecvOutcome.closed
        else
          let st1 : LoginClient :=
            { st with recvData := overwrite st.recvData st.recvSize r,
                      recvSize := st.recvSize + r.length }
          if BBHeaderSize ≤ st1.recvSize then
            let decd := hdrDec (st1.recvData.take BBHeaderSize)
              ++ st1.recvData.drop BBHeaderSize
            match GetPacketSize (decd.take 2) with
            | Except.error _ => some RecvOutcome.faulted
            | Except.ok sz =>
              recvHeaderLoop hdrDec rest
                { st1 with recvData := decd, packetSize := sz }
          else recvHeaderLoop hdrDec rest st1

/-- Body read loop of `handleCharacterClient`: read until
`recvSize ≥ packetSize`; any read error here is a panic. -/
def recvBodyLoop : List (List Nat) → LoginClient → Option RecvOutcome
  | reads, st =>
    if st.recvSize < st.packetSize then
      match reads with
      | [] => none
      | r :: rest =>
        if r.length = 0 then some RecvOutcome.faulted
        else
          recvBodyLoop rest
            { st with recvData := overwrite st.recvData st.recvSize r,
                      recvSize := st.recvSize + r.length }
    else some (RecvOutcome.ready st reads)

/-- Result of one pass of the `handleCharacterClient` session loop. -/
inductive LoopResult where
  | closed (replies : List Reply)
  | fault
  | next (st : LoginClient) (replies : List Reply)
  deriving Repr

/-- Tail of a session-loop iteration once the whole frame is in the
buffer: decrypt the post-header remainder when `packetSize > BBHeaderSize`
(`bodyDec`), dispatch through `processCharacterPacket` (an error breaks out
of the loop and the deferred handler closes the connection), and otherwise
clear the buffer with `ZeroSlice(recvData, recvSize)` and reset both
cursors. -/
def dispatchAndClear (tc : PacketTypes) (env : Env)
    (bodyDec : List Nat → List Nat) (st2 : LoginClient) : Option LoopResult :=
  let st3 : LoginClient :=
    if BBHeaderSize < st2.packetSize then
      { st2 with recvData :=
          st2.recvData.take BBHeaderSize
          ++ bodyDec ((st2.recvData.take st2.packetSize).drop BBHeaderSize)
          ++ st2.recvData.drop st2.packetSize }
    else st2
  match processCharacterPacket tc env st3 with
  | ProcResult.panicked reps => some (LoopResult.closed reps)
  | ProcResult.ok _ reps (some _) => some (LoopResult.closed reps)
  | ProcResult.ok st4 reps none =>
    some (LoopResult.next
      { st4 with recvData := ZeroSlice st4.recvData st4.recvSize,
                 recvSize := 0, packetSize := 0 } reps)

/-- One iteration of the `for` loop in `handleCharacterClient`: run the two
read loops, then hand the completed frame to `dispatchAndClear`. -/
def charIteration (tc : PacketTypes) (env : Env)
    (hdrDec bodyDec : List Nat → List Nat)
    (reads : List (List Nat)) (st : LoginClient) : Option LoopResult :=
  match recvHeaderLoop hdrDec reads st with
  | none => none
  | some RecvOutcome.closed => some (LoopResult.closed [])
  | some RecvOutcome.faulted => some LoopResult.fault
  | some (RecvOutcome.ready st1 reads1) =>
    match recvBodyLoop reads1 st1 with
    | none => none
    | some RecvOutcome.closed => some (LoopResult.closed [])
    | some RecvOutcome.faulted => some LoopResult.fault
    | some (RecvOutcome.ready st2 _) => dispatchAndClear tc env bodyDec st2

/-- Whether the iteration result leaves the session loop running. -/
def resultContinues : Option LoopResult → Bool
  | some (LoopResult.next _ _) => true
  | _ => false

/-- The receive buffer after an iteration that continued the loop. -/
def bufAfter : Option LoopResult → Option (List Nat)
  | some (LoopResult.next st _) => some st.recvData
  | _ => none

/-- The replies emitted by an iteration that continued the loop. -/
def repliesAfter : Option LoopResult → Option (List Reply)
  | some (LoopResult.next _ reps) => some reps
  | _ => none

/-- Payload carried by a `ChunkResult` (empty for a fault). -/
def sentPayload : ChunkResult → List Nat
  | ChunkResult.sent _ p => p
  | ChunkResult.fault => []

/-- The client state after `handleGuildcardDataStart` staged `blob`. -/
def stagedClient (client : LoginClient) (blob : List Nat) : LoginClient :=
  { client with gcData := blob, gcDataSize := blob.length % 2 ^ 16 }

/-- Number of chunks needed for a staged blob: `ceil(size / MaxChunkSize)`. -/
def gcCeilChunks (size : Nat) : Nat := (size + MaxChunkSize - 1) / MaxChunkSize

/-- One parameter-header entry built by `loadParameterFiles` (sizes and
offsets are `uint32`). -/
structure ParameterEntry where
  Size : Nat
  Checksum : Nat
  Offset : Nat
  Filename : List Nat
  deriving DecidableEq, Repr

/-- Go `copy(entry.Filename[:], []uint8(paramFile))` into a zeroed
64-byte array. -/
def mkFilename (name : List Nat) : List Nat :=
  name.take 0x40 ++ List.replicate (0x40 - min 0x40 name.length) 0

/-- Default `ParameterEntry` used with `List.getD`. -/
def dfltEntry : ParameterEntry := { Size := 0, Checksum := 0, Offset := 0, Filename := [] }

/-- The per-file loop of `loadParameterFiles`: for each `(name, data)` pair
(file contents supplied by `ioutil.ReadFile`, whose failure is a startup
panic) build a `ParameterEntry` with `Size = uint32(len)`, the IEEE CRC-32,
`Offset = uint32(offset)`, and the copied filename, advancing `offset` by
the file size. -/
def loadParamEntries : Nat → List (List Nat × List Nat) → List ParameterEntry
  | _, [] => []
  | offset, f :: rest =>
    { Size := f.2.length % 2 ^ 32, Checksum := ChecksumIEEE f.2,
      Offset := offset % 2 ^ 32, Filename := mkFilename f.1 }
      :: loadParamEntries (offset + f.2.length) rest

/-- The concatenation `tmpChunkData` of all parameter file contents. -/
def paramTmp (files : List (List Nat × List Nat)) : List Nat :=
  (files.map Prod.snd).flatten

/-- The chunk-splitting tail of `loadParameterFiles`: `chunks := offset /
MAX_CHUNK_SIZE` full slices `tmpChunkData[i*S : i*S+S]`, plus the remainder
`tmpChunkData[chunks*S:]` when any bytes are left.  The `map[int][]byte`
keyed `0..` is modelled as the list in key order. -/
def paramChunkList (tmp : List Nat) : List (List Nat) :=
  let chunks := tmp.length / MAX_CHUNK_SIZE
  let full := (List.range chunks).map
    (fun i => (tmp.drop (i * MAX_CHUNK_SIZE)).take MAX_CHUNK_SIZE)
  if tmp.length % MAX_CHUNK_SIZE > 0
  then full ++ [tmp.drop (chunks * MAX_CHUNK_SIZE)]
  else full

/-- Decimal digit character. -/
def digitChar (n : Nat) : Char :=
  match n with
  | 0 => '0' | 1 => '1' | 2 => '2' | 3 => '3' | 4 => '4'
  | 5 => '5' | 6 => '6' | 7 => '7' | 8 => '8' | _ => '9'

/-- Decimal digits of `n` (most significant first). -/
def natChars (n : Nat) : List Char := Nat.toDigits 10 n

/-- Zero-pad to two digits, as Go's zero-padded layout tokens print. -/
def pad2 (n : Nat) : List Char :=
  if n < 10 then '0' :: natChars n else natChars n

/-- Zero-pad to three digits, as `fmt.Sprintf` with `%03d` prints. -/
def pad3 (n : Nat) : List Char :=
  if n < 10 then '0' :: '0' :: natChars n
  else if n < 100 then '0' :: natChars n
  else natChars n

/-- Zero-pad to four digits, as Go prints the `2006` year token. -/
def pad4 (n : Nat) : List Char :=
  if n < 10 then '0' :: '0' :: '0' :: natChars n
  else if n < 100 then '0' :: '0' :: natChars n
  else if n < 1000 then '0' :: natChars n
  else natChars n

/-- A wall-clock instant as `time.Time.Format` consumes it. -/
structure GoTime where
  year : Nat
  month : Nat
  day : Nat
  hour : Nat
  minute : Nat
  second : Nat
  deriving DecidableEq, Repr

/-- Go's reference-time layout interpreter, restricted to the tokens that
can occur in `timeFmt`: `2006` prints the year, `01` the month, `02` the
day, `15` the 24h hour, `04` the minute, `05` the second; all other
characters are copied verbatim. -/
def goFormat (t : GoTime) : List Char → List Char
  | '2' :: '0' :: '0' :: '6' :: rest => pad4 t.year ++ goFormat t rest
  | '0' :: '1' :: rest => pad2 t.month ++ goFormat t rest
  | '0' :: '2' :: rest => pad2 t.day ++ goFormat t rest
  | '0' :: '4' :: rest => pad2 t.minute ++ goFormat t rest
  | '0' :: '5' :: rest => pad2 t.second ++ goFormat t rest
  | '1' :: '5' :: rest => pad2 t.hour ++ goFormat t rest
  | c :: rest => c :: goFormat t rest
  | [] => []

/-- The layout constant `timeFmt` of packets.go, verbatim. -/
def timeFmt : String := "2006:01:02: 15:05:05"

/-- The timestamp string `SendTimestamp` builds:
`fmt.Sprintf("%s.%03d", time.Now().Format(timeFmt), tv.Usec/1000)`,
with the current time and millisecond value as inputs. -/
def sendTimestampChars (t : GoTime) (millis : Nat) : List Char :=
  goFormat t timeFmt.toList ++ ('.' :: pad3 millis)

/-- Modelled from the spec: the timestamp format the spec asserts,
ASCII `YYYY:MM:DD: HH:MM:SS.mmm` with the minute field between hour and
second.  Stated for comparison with `sendTimestampChars`. -/
def specTimestampChars (t : GoTime) (millis : Nat) : List Char :=
  pad4 t.year ++ (':' :: pad2 t.month) ++ (':' :: pad2 t.day)
    ++ (':' :: ' ' :: pad2 t.hour) ++ (':' :: pad2 t.minute)
    ++ (':' :: pad2 t.second) ++ ('.' :: pad3 millis)

/-- A freshly accepted client as `NewClient` builds it: a 1 KiB zeroed
receive buffer and zeroed cursors and session fields. -/
def client0 : LoginClient :=
  { recvData := List.replicate 1024 0, recvSize := 0, packetSize := 0,
    guildcard := 0, flag := 0, gcData := [], gcDataSize := 0 }

/-- A concrete assignment of distinct packet-type constants. -/
def tc0 : PacketTypes :=
  { LoginType := 1, DisconnectType := 2, OptionsRequestType := 3,
    CharPreviewReqType := 4, ChecksumType := 5, GuildcardReqType := 6,
    GuildcardChunkReqType := 7, ParameterHeaderReqType := 8,
    ParameterChunkReqType := 9, SetFlagType := 10, CharPreviewType := 11 }

/-- A concrete oracle environment. -/
def env0 : Env :=
  { verifyAccount := Except.ok 0, keyConfig := Except.ok [],
    charPreviewRow := Except.ok none, slotReq := 0,
    gcBlob := Except.ok [], chunkReq := { Continue := 0, ChunkRequested := 0 },
    paramHeaderData := [], paramChunkData := fun _ => [] }

theorem length_expandUtf16 (v : List Nat) : (ExpandUtf16 v).length = 2 * v.length := by
  induction v with
  | nil => rfl
  | cons x t ih => simp [ExpandUtf16] at ih ⊢; omega

theorem expandUtf16_cons (x : Nat) (t : List Nat) :
    ExpandUtf16 (x :: t)
      = (x % 2 ^ 8) :: (((x >>> 8) &&& 0xFF) % 2 ^ 8) :: ExpandUtf16 t := by
  simp [ExpandUtf16]

theorem utf8To16Pairs_expand (v : List Nat) :
    utf8To16Pairs (ExpandUtf16 v) = v.map (fun x => x % 2 ^ 8) := by
  induction v with
  | nil => rfl
  | cons x t ih =>
    rw [expandUtf16_cons, utf8To16Pairs, ih]
    have hsh : ((((x >>> 8) &&& 0xFF) % 2 ^ 8) <<< 8) % 2 ^ 8 = 0 := by
      rw [Nat.shiftLeft_eq]; exact Nat.mul_mod_left _ _
    have hlt : x % 2 ^ 8 < 2 ^ 16 :=
      lt_trans (Nat.mod_lt _ (by norm_num)) (by norm_num)
    rw [hsh, Nat.or_zero, Nat.mod_eq_of_lt hlt]
    simp

/-- Claim C10 (counterexample): `Utf8To16` does not invert `ExpandUtf16` —
the value `0x1234` expands to `[0x34, 0x12]` but converts back to `[0x34]`
because the `uint8` shift `src[(i*2)+1] << 8` truncates to zero. -/
theorem c10_counterexample : Utf8To16 (ExpandUtf16 [0x1234]) ≠ [0x1234] := by decide

/-- Claim C10 (amended): `Utf8To16` keeps only the even-index (low) byte of
every pair — the `uint8` shift of the odd-index byte is always zero — so
the round trip through `ExpandUtf16` returns each element reduced mod 256,
and is the identity exactly on values below 256. -/
theorem c10_low_bytes (v : List Nat) :
    Utf8To16 (ExpandUtf16 v) = v.map (fun x => x % 2 ^ 8) := by
  unfold Utf8To16
  have hlen : (ExpandUtf16 v).length % 2 = 0 := by rw [length_expandUtf16]; omega
  simp [hlen, utf8To16Pairs_expand]

theorem dropWhile_zero_replicate (k : Nat) :
    (List.replicate k 0).dropWhile (fun x : Nat => x == 0) = [] := by
  induction k with
  | zero => rfl
  | succ n ih => simp [List.replicate_succ, List.dropWhile_cons, ih]

theorem stripPadding_append_replicate (b : List Nat) (k : Nat)
    (h : ∃ x ∈ b, x ≠ 0) :
    StripPadding (b ++ List.replicate k 0) = StripPadding b := by
  have hne : b.reverse.dropWhile (fun x => x == 0) ≠ [] := by
    rw [Ne, List.dropWhile_eq_nil_iff]
    push_neg
    obtain ⟨x, hx, hx0⟩ := h
    exact ⟨x, List.mem_reverse.2 hx, by simpa using hx0⟩
  unfold StripPadding
  rw [List.reverse_append, List.reverse_replicate, List.dropWhile_append,
    dropWhile_zero_replicate]
  simp [hne]

theorem stripPadding_all_zero (b : List Nat) (h : ∀ x ∈ b, x = 0) :
    StripPadding b = b := by
  have hz : b.reverse.dropWhile (fun x => x == 0) = [] := by
    rw [List.dropWhile_eq_nil_iff]
    intro x hx
    simpa using h x (List.mem_reverse.1 hx)
  unfold StripPadding
  simp [hz]

theorem stripPadding_last_ne (b : List Nat) (x : Nat) (hx : x ≠ 0) :
    StripPadding (b ++ [x]) = b ++ [x] := by
  have hd : (b ++ [x]).reverse.dropWhile (fun y => y == 0) = x :: b.reverse := by
    rw [List.reverse_append]
    simp [List.dropWhile_cons, hx]
  unfold StripPadding
  rw [hd]
  simp

/-- Claim C9 (counterexample): the padded frame built by `fixLength` from
the record `[4,0,1,0]` (a PC header of size 4, type 1) with quantum 8 is
`[8,0,1,0,0,0,0,0]`, and `StripPadding` returns `[8,0,1]`, not the
four-byte record content — the record's own trailing zero byte is lost. -/
theorem c9_counterexample :
    StripPadding (fixLength [4, 0, 1, 0] 4 8).1
      ≠ ((fixLength [4, 0, 1, 0] 4 8).1).take 4 := by decide

/-- Claim C9 (amended): padding appends only zero bytes, and `StripPadding`
of the padded frame equals `StripPadding` of the unpadded content; it
returns the record exactly when the record's last byte is non-zero, and it
returns an all-zero slice (in particular the whole padded frame of an
all-zero record) unchanged rather than stripping it. -/
theorem c9_stripPadding_amended :
    (∀ b k, (∃ x ∈ b, x ≠ 0) →
        StripPadding (b ++ List.replicate k 0) = StripPadding b)
    ∧ (∀ b x k, x ≠ 0 →
        StripPadding ((b ++ [x]) ++ List.replicate k 0) = b ++ [x])
    ∧ (∀ b, (∀ x ∈ b, x = 0) → StripPadding b = b) := by
  refine ⟨stripPadding_append_replicate, ?_, stripPadding_all_zero⟩
  intro b x k hx
  rw [stripPadding_append_replicate (b ++ [x]) k ⟨x, by simp, hx⟩,
    stripPadding_last_ne b x hx]

/-- Witness for the amended C9 at concrete slices. -/
theorem c9_witness :
    StripPadding (([3, 0, 1] ++ [7]) ++ List.replicate 4 0) = [3, 0, 1] ++ [7]
    ∧ StripPadding [0, 0, 0] = [0, 0, 0] := by
  exact ⟨c9_stripPadding_amended.2.1 [3, 0, 1] 7 4 (by decide),
    c9_stripPadding_amended.2.2 [0, 0, 0] (by decide)⟩

theorem fixLengthPad_go (hdr : Nat) :
    ∀ (k : Nat) (data : List Nat) (L fuel : Nat),
      L + k < 2 ^ 16 → k ≤ fuel → (L + k) % hdr = 0 →
      (∀ j, j < k → (L + j) % hdr ≠ 0) →
      fixLengthPad data L hdr fuel = (data ++ List.replicate k 0, L + k) := by
  intro k
  induction k with
  | zero =>
    intro data L fuel hlt hf h0 hj
    simp only [Nat.add_zero] at h0
    cases fuel with
    | zero => simp [fixLengthPad]
    | succ f => simp [fixLengthPad, h0]
  | succ k ih =>
    intro data L fuel hlt hf h0 hj
    have hL0 : L % hdr ≠ 0 := by
      have := hj 0 (Nat.succ_pos k)
      simpa using this
    cases fuel with
    | zero => omega
    | succ f =>
      rw [fixLengthPad, if_pos hL0, Nat.mod_eq_of_lt (show L + 1 < 2 ^ 16 by omega)]
      rw [ih (data ++ [0]) (L + 1) f (by omega) (by omega)
        (by rw [show L + 1 + k = L + (k + 1) from by omega]; exact h0)
        (fun j hjk => by
          have := hj (j + 1) (by omega)
          rw [show L + 1 + j = L + (j + 1) from by omega]
          exact this)]
      rw [List.append_assoc]
      simp [List.replicate_succ]
      omega

theorem padCount_mod (hdr L : Nat) (hpos : 0 < hdr) :
    (L + (hdr - L % hdr) % hdr) % hdr = 0 := by
  rcases Nat.eq_zero_or_pos (L % hdr) with h0 | h0
  · simp [h0, Nat.mod_self]
  · have hlt : L % hdr < hdr := Nat.mod_lt _ hpos
    have hk : (hdr - L % hdr) % hdr = hdr - L % hdr := Nat.mod_eq_of_lt (by omega)
    rw [hk]
    have hdm := Nat.div_add_mod L hdr
    rw [show L + (hdr - L % hdr) = hdr * (L / hdr + 1) from by
      have : hdr * (L / hdr + 1) = hdr * (L / hdr) + hdr := by ring
      omega]
    exact Nat.mul_mod_right _ _

theorem padCount_min (hdr L : Nat) (hpos : 0 < hdr) :
    ∀ j, j < (hdr - L % hdr) % hdr → (L + j) % hdr ≠ 0 := by
  intro j hj
  have hlt : L % hdr < hdr := Nat.mod_lt _ hpos
  rcases Nat.eq_zero_or_pos (L % hdr) with h0 | h0
  · rw [h0] at hj
    simp [Nat.mod_self] at hj
  · have hk : (hdr - L % hdr) % hdr = hdr - L % hdr := Nat.mod_eq_of_lt (by omega)
    rw [hk] at hj
    have hdm := Nat.div_add_mod L hdr
    rw [show L + j = L % hdr + j + hdr * (L / hdr) from by omega,
      Nat.add_mul_mod_self_left, Nat.mod_eq_of_lt (show L % hdr + j < hdr by omega)]
    omega

theorem fixLength_eq (data : List Nat) (L hdr : Nat) (hpos : 0 < hdr)
    (hcap : L + hdr ≤ 2 ^ 16) :
    fixLength data L hdr =
      (((data ++ List.replicate ((hdr - L % hdr) % hdr) 0).set 0
          ((L + (hdr - L % hdr) % hdr) % 2 ^ 8)).set 1
          ((L + (hdr - L % hdr) % hdr) / 2 ^ 8 % 2 ^ 8),
       L + (hdr - L % hdr) % hdr) := by
  have hklt : (hdr - L % hdr) % hdr < hdr := Nat.mod_lt _ hpos
  unfold fixLength
  rw [fixLengthPad_go hdr ((hdr - L % hdr) % hdr) data L (2 ^ 16)
    (by omega) (by omega) (padCount_mod hdr L hpos) (padCount_min hdr L hpos)]

/-- Claim C4: for a record of length `L` entering the encrypted send path,
`fixLength` produces a frame whose length is a multiple of the session's
header quantum (4 or 8), whose appended padding bytes are all zero, and
whose first two bytes are the total length in little-endian order. -/
theorem c4_fixLength_frame (data : List Nat) (L hdr : Nat)
    (hlen : data.length = L) (h2 : 2 ≤ L) (hq : hdr = 4 ∨ hdr = 8)
    (hcap : L + hdr ≤ 2 ^ 16) :
    (fixLength data L hdr).1.length = (fixLength data L hdr).2
    ∧ (fixLength data L hdr).2 % hdr = 0
    ∧ (∀ i, L ≤ i → i < (fixLength data L hdr).2 →
        (fixLength data L hdr).1.getD i 1 = 0)
    ∧ (fixLength data L hdr).1.take 2 =
        [(fixLength data L hdr).2 % 2 ^ 8,
         (fixLength data L hdr).2 / 2 ^ 8 % 2 ^ 8] := by
  have hpos : 0 < hdr := by rcases hq with h | h <;> omega
  rw [fixLength_eq data L hdr hpos hcap]
  refine ⟨?_, padCount_mod hdr L hpos, ?_, ?_⟩
  · simp [hlen]
  · intro i hiL hilt
    rw [List.getD_eq_getElem?_getD,
      List.getElem?_set_ne (show (1 : Nat) ≠ i by omega),
      List.getElem?_set_ne (show (0 : Nat) ≠ i by omega),
      List.getElem?_append_right (show data.length ≤ i by omega),
      List.getElem?_replicate, if_pos (show i - data.length < (hdr - L % hdr) % hdr by omega)]
    rfl
  · rcases data with _ | ⟨a, rest⟩
    · simp at hlen; omega
    rcases rest with _ | ⟨b, rest2⟩
    · simp at hlen; omega
    simp

/-- Witness for C4 at a concrete five-byte record with quantum 8. -/
theorem c4_witness :
    (([1, 0, 0, 0, 0] : List Nat).length = 5 ∧ 2 ≤ 5
      ∧ ((8 : Nat) = 4 ∨ (8 : Nat) = 8) ∧ 5 + 8 ≤ 2 ^ 16)
    ∧ (fixLength [1, 0, 0, 0, 0] 5 8).2 % 8 = 0
    ∧ (fixLength [1, 0, 0, 0, 0] 5 8).1.take 2 =
        [(fixLength [1, 0, 0, 0, 0] 5 8).2 % 2 ^ 8,
         (fixLength [1, 0, 0, 0, 0] 5 8).2 / 2 ^ 8 % 2 ^ 8] := by
  refine ⟨⟨by decide, by decide, Or.inr rfl, by decide⟩, ?_, ?_⟩
  · exact (c4_fixLength_frame [1, 0, 0, 0, 0] 5 8 (by decide) (by decide)
      (Or.inr rfl) (by decide)).2.1
  · exact (c4_fixLength_frame [1, 0, 0, 0, 0] 5 8 (by decide) (by decide)
      (Or.inr rfl) (by decide)).2.2.2

/-- Claim C8 (code bug): the layout constant `timeFmt` is
`2006:01:02: 15:05:05` — its final three tokens are hour, second, second,
the minutes token `04` having been mistyped as a second `05` — so at
2020-01-02 12:34:56.789 the code formats `2020:01:02: 12:56:56.789`,
repeating the seconds in the minutes position, while the documented
`YYYY:MM:DD: HH:MM:SS.mmm` format gives `2020:01:02: 12:34:56.789`. -/
theorem c8_timestamp_bug :
    sendTimestampChars
        { year := 2020, month := 1, day := 2, hour := 12, minute := 34, second := 56 } 789
      = String.toList "2020:01:02: 12:56:56.789"
    ∧ sendTimestampChars
        { year := 2020, month := 1, day := 2, hour := 12, minute := 34, second := 56 } 789
      ≠ specTimestampChars
        { year := 2020, month := 1, day := 2, hour := 12, minute := 34, second := 56 } 789 := by
  constructor <;> decide

theorem processCharacterPacket_unknown (tc : PacketTypes) (env : Env)
    (client : LoginClient)
    (h : (parseBBHeader (client.recvData.take BBHeaderSize)).PType ∉ handledTypes tc) :
    processCharacterPacket tc env client = ProcResult.ok client [] none := by
  simp only [handledTypes, List.mem_cons, List.mem_singleton, not_or] at h
  obtain ⟨h1, h2, h3, h4, h5, h6, h7, h8, h9, h10, h11⟩ := h
  simp [processCharacterPacket, h1, h2, h3, h4, h5, h6, h7, h8, h9, h10, h11]

/-- Claim C7: a packet whose type matches no case of the CHARACTER switch
is only logged: `processCharacterPacket` returns no error and leaves the
whole session state (guildcard, flag, staged guildcard blob and size,
buffer and cursors) unchanged, so the session loop keeps running. -/
theorem c7_unknown_type_ignored (tc : PacketTypes) (env : Env) (client : LoginClient)
    (h : (parseBBHeader (client.recvData.take BBHeaderSize)).PType ∉ handledTypes tc) :
    processCharacterPacket tc env client = ProcResult.ok client [] none :=
  processCharacterPacket_unknown tc env client h

/-- Witness for C7: type 0 on a fresh client is unknown and ignored. -/
theorem c7_witness :
    ((parseBBHeader (client0.recvData.take BBHeaderSize)).PType ∉ handledTypes tc0)
    ∧ processCharacterPacket tc0 env0 client0 = ProcResult.ok client0 [] none :=
  ⟨by decide, c7_unknown_type_ignored tc0 env0 client0 (by decide)⟩

/-- Claim C5 (counterexample): with a three-byte staged blob, the request
for chunk 65536 — whose offset `65536 * MaxChunkSize` lies far past the end
of the blob — is answered with the full three-byte payload of chunk 0 and
the session continues: `uint16(chunkNum)` truncates the index to zero. -/
theorem c5_counterexample :
    handleGuildcardChunk (stagedClient client0 [1, 2, 3])
        { Continue := 1, ChunkRequested := 65536 }
      = some (ChunkResult.sent 65536 [1, 2, 3])
    ∧ sentPayload (SendGuildcardChunk (stagedClient client0 [1, 2, 3]) 65536) ≠ [] := by
  constructor <;> decide

theorem sendGuildcardChunk_spec (client : LoginClient) (c : Nat)
    (hlen : client.gcDataSize = client.gcData.length)
    (hsz : client.gcData.length < 2 ^ 16) :
    (((c % 2 ^ 16) * MaxChunkSize) % 2 ^ 16 < client.gcData.length →
      SendGuildcardChunk client c = ChunkResult.sent c
        ((client.gcData.drop (((c % 2 ^ 16) * MaxChunkSize) % 2 ^ 16)).take
          (min (client.gcData.length - ((c % 2 ^ 16) * MaxChunkSize) % 2 ^ 16) MaxChunkSize)))
    ∧ (((c % 2 ^ 16) * MaxChunkSize) % 2 ^ 16 = client.gcData.length →
      SendGuildcardChunk client c = ChunkResult.sent c [])
    ∧ (client.gcData.length < ((c % 2 ^ 16) * MaxChunkSize) % 2 ^ 16 →
      SendGuildcardChunk client c = ChunkResult.fault) := by
  have hS : 0 < MaxChunkSize := by norm_num [MaxChunkSize]
  have hS16 : MaxChunkSize < 2 ^ 16 := by norm_num [MaxChunkSize]
  simp only [SendGuildcardChunk, hlen]
  set n := client.gcData.length with hn
  set w := ((c % 2 ^ 16) * MaxChunkSize) % 2 ^ 16 with hw
  have hwlt : w < 2 ^ 16 := Nat.mod_lt _ (by norm_num)
  refine ⟨?_, ?_, ?_⟩
  · intro hlt
    have hrem : (n + 2 ^ 16 - w) % 2 ^ 16 = n - w := by
      rw [show n + 2 ^ 16 - w = n - w + 2 ^ 16 from by omega, Nat.add_mod_right]
      exact Nat.mod_eq_of_lt (by omega)
    rw [hrem]
    by_cases hbig : MaxChunkSize < n - w
    · rw [if_pos hbig]
      have hhi : (w + MaxChunkSize) % 2 ^ 16 = w + MaxChunkSize :=
        Nat.mod_eq_of_lt (by omega)
      rw [hhi, if_pos ⟨by omega, by omega⟩,
        show w + MaxChunkSize - w = MaxChunkSize from by omega,
        Nat.min_eq_right (by omega)]
    · rw [if_neg hbig, if_pos (by omega : w ≤ n),
        Nat.min_eq_left (by omega),
        show n - w = (client.gcData.drop w).length from by simp [hn],
        List.take_length]
  · intro heq
    rw [show n + 2 ^ 16 - w = 2 ^ 16 from by omega, Nat.mod_self,
      if_neg (by omega), if_pos (by omega : w ≤ n)]
    rw [heq, hn, List.drop_length]
  · intro hgt
    have hrem : (n + 2 ^ 16 - w) % 2 ^ 16 = n + 2 ^ 16 - w :=
      Nat.mod_eq_of_lt (by omega)
    rw [hrem]
    by_cases hbig : MaxChunkSize < n + 2 ^ 16 - w
    · rw [if_pos hbig, if_neg (by intro hand; omega)]
    · rw [if_neg hbig, if_neg (by omega : ¬w ≤ n)]

/-- Claim C5 (amended): the served offset is computed in `uint16`
arithmetic, `w = (uint16(c) * MaxChunkSize) mod 2 ^ 16`, not as
`c * MaxChunkSize`.  If `Continue ≠ 1` no chunk is sent; otherwise a
request with `w` inside the blob is answered with the
`min(gcDataSize - w, MaxChunkSize)`-byte slice at `w`, a request with `w`
equal to the blob size gets a zero-length payload, and a request with `w`
past the end faults on the slice bounds, ending the session. -/
theorem c5_chunk_request (client : LoginClient) (req : GuildcardChunkReqPacket)
    (hlen : client.gcDataSize = client.gcData.length)
    (hsz : client.gcData.length < 2 ^ 16) :
    (req.Continue ≠ 1 → handleGuildcardChunk client req = none)
    ∧ (req.Continue = 1 →
      ((((req.ChunkRequested % 2 ^ 16) * MaxChunkSize) % 2 ^ 16 < client.gcData.length →
        handleGuildcardChunk client req = some (ChunkResult.sent req.ChunkRequested
          ((client.gcData.drop (((req.ChunkRequested % 2 ^ 16) * MaxChunkSize) % 2 ^ 16)).take
            (min (client.gcData.length
                - ((req.ChunkRequested % 2 ^ 16) * MaxChunkSize) % 2 ^ 16)
              MaxChunkSize))))
      ∧ (((req.ChunkRequested % 2 ^ 16) * MaxChunkSize) % 2 ^ 16 = client.gcData.length →
        handleGuildcardChunk client req = some (ChunkResult.sent req.ChunkRequested []))
      ∧ (client.gcData.length < ((req.ChunkRequested % 2 ^ 16) * MaxChunkSize) % 2 ^ 16 →
        handleGuildcardChunk client req = some ChunkResult.fault))) := by
  constructor
  · intro h
    simp [handleGuildcardChunk, h]
  · intro hc
    have hgo : handleGuildcardChunk client req
        = some (SendGuildcardChunk client req.ChunkRequested) := by
      simp [handleGuildcardChunk, hc]
    have hspec := sendGuildcardChunk_spec client req.ChunkRequested hlen hsz
    exact ⟨fun hw => by rw [hgo, hspec.1 hw],
      fun hw => by rw [hgo, hspec.2.1 hw],
      fun hw => by rw [hgo, hspec.2.2 hw]⟩

/-- Witness for the amended C5: chunk 0 of a staged three-byte blob. -/
theorem c5_witness :
    ((stagedClient client0 [9, 8, 7]).gcDataSize
      = (stagedClient client0 [9, 8, 7]).gcData.length)
    ∧ handleGuildcardChunk (stagedClient client0 [9, 8, 7])
        { Continue := 1, ChunkRequested := 0 }
      = some (ChunkResult.sent 0 [9, 8, 7]) := by
  refine ⟨by decide, ?_⟩
  have h := ((c5_chunk_request (stagedClient client0 [9, 8, 7])
    { Continue := 1, ChunkRequested := 0 } (by decide) (by decide)).2 rfl).1 (by decide)
  exact h.trans (by decide)

theorem flatten_range_chunks (S : Nat) (l : List Nat) (n : Nat) :
    ((List.range n).map (fun i => (l.drop (i * S)).take S)).flatten = l.take (n * S) := by
  induction n with
  | zero => simp
  | succ n ih =>
    rw [List.range_succ, List.map_append, List.flatten_append, ih]
    simp only [List.map_cons, List.map_nil, List.flatten_cons, List.flatten_nil,
      List.append_nil]
    rw [← List.take_add, show n * S + S = (n + 1) * S from by ring]

theorem take_min_length (l : List Nat) (m : Nat) :
    l.take (min l.length m) = l.take m := by
  rcases le_total l.length m with h | h
  · rw [Nat.min_eq_left h, List.take_length, List.take_of_length_le h]
  · rw [Nat.min_eq_right h]

/-- Claim C2: `handleGuildcardDataStart` stages the serialized guildcard
blob with `gcDataSize = uint16(size)` and sends a header whose checksum is
the IEEE CRC-32 of exactly that blob; every chunk `i` below
`ceil(size / MaxChunkSize)` is served as the slice
`blob[i*MaxChunkSize : i*MaxChunkSize + MaxChunkSize]`, and the
concatenation of those chunks in index order is the staged blob. -/
theorem c2_guildcard_complete (env : Env) (client : LoginClient) (blob : List Nat)
    (hb : env.gcBlob = Except.ok blob) (h16 : blob.length < 2 ^ 16) :
    handleGuildcardDataStart env client =
      ProcResult.ok (stagedClient client blob)
        [Reply.guildcardHeader (ChecksumIEEE blob) blob.length] none
    ∧ (∀ i, i < gcCeilChunks blob.length →
        SendGuildcardChunk (stagedClient client blob) i =
          ChunkResult.sent i ((blob.drop (i * MaxChunkSize)).take MaxChunkSize))
    ∧ ((List.range (gcCeilChunks blob.length)).map
        (fun i => sentPayload (SendGuildcardChunk (stagedClient client blob) i))).flatten
      = blob := by
  have hmod : blob.length % 2 ^ 16 = blob.length := Nat.mod_eq_of_lt h16
  have hgd : (stagedClient client blob).gcData = blob := rfl
  have hcl : (stagedClient client blob).gcDataSize
      = (stagedClient client blob).gcData.length := by
    simp only [stagedClient]
    exact hmod
  have hcsz : (stagedClient client blob).gcData.length < 2 ^ 16 := by
    simp only [stagedClient]
    exact h16
  have hchunk : ∀ i, i < gcCeilChunks blob.length →
      SendGuildcardChunk (stagedClient client blob) i =
        ChunkResult.sent i ((blob.drop (i * MaxChunkSize)).take MaxChunkSize) := by
    intro i hin
    have hspec := sendGuildcardChunk_spec (stagedClient client blob) i hcl hcsz
    rw [hgd] at hspec
    have hbound : i * MaxChunkSize < blob.length := by
      simp only [gcCeilChunks, MaxChunkSize] at hin ⊢
      have h1 : (i + 1) * 26624 ≤ blob.length + 26624 - 1 :=
        (Nat.le_div_iff_mul_le (by norm_num)).1 hin
      omega
    have hw : ((i % 2 ^ 16) * MaxChunkSize) % 2 ^ 16 = i * MaxChunkSize := by
      have hi16 : i % 2 ^ 16 = i := by
        apply Nat.mod_eq_of_lt
        simp only [MaxChunkSize] at hbound
        omega
      rw [hi16]
      apply Nat.mod_eq_of_lt
      simp only [MaxChunkSize] at hbound ⊢
      omega
    rw [hw] at hspec
    rw [hspec.1 hbound]
    congr 1
    rw [show blob.length - i * MaxChunkSize
        = (blob.drop (i * MaxChunkSize)).length from (List.length_drop _ _).symm,
      take_min_length]
  refine ⟨?_, hchunk, ?_⟩
  · simp only [handleGuildcardDataStart, hb, stagedClient, hmod]
  · have hmap : (List.range (gcCeilChunks blob.length)).map
        (fun i => sentPayload (SendGuildcardChunk (stagedClient client blob) i))
      = (List.range (gcCeilChunks blob.length)).map
        (fun i => (blob.drop (i * MaxChunkSize)).take MaxChunkSize) :=
      List.map_congr_left (fun i hi => by
        rw [hchunk i (List.mem_range.1 hi)]; rfl)
    rw [hmap, flatten_range_chunks]
    apply List.take_of_length_le
    simp only [gcCeilChunks, MaxChunkSize]
    have hdm := Nat.div_add_mod (blob.length + 26624 - 1) 26624
    have hml := Nat.mod_lt (blob.length + 26624 - 1) (show 0 < 26624 by norm_num)
    omega

/-- Witness for C2: chunk 0 of a staged three-byte blob is the whole blob. -/
theorem c2_witness :
    (([5, 6, 7] : List Nat).length < 2 ^ 16)
    ∧ SendGuildcardChunk (stagedClient client0 [5, 6, 7]) 0
      = ChunkResult.sent 0 (([5, 6, 7].drop (0 * MaxChunkSize)).take MaxChunkSize) := by
  refine ⟨by decide, ?_⟩
  exact (c2_guildcard_complete { env0 with gcBlob := Except.ok [5, 6, 7] }
    client0 [5, 6, 7] rfl (by decide)).2.1 0 (by decide)

theorem loadParamEntries_getD :
    ∀ (files : List (List Nat × List Nat)) (off i : Nat), i < files.length →
      (loadParamEntries off files).getD i dfltEntry =
        { Size := (files.getD i ([], [])).2.length % 2 ^ 32,
          Checksum := ChecksumIEEE (files.getD i ([], [])).2,
          Offset := (off + ((files.map (fun f => f.2.length)).take i).sum) % 2 ^ 32,
          Filename := mkFilename (files.getD i ([], [])).1 } := by
  intro files
  induction files with
  | nil =>
    intro off i h
    simp at h
  | cons f rest ih =>
    intro off i h
    cases i with
    | zero => simp [loadParamEntries]
    | succ j =>
      have hj : j < rest.length := by simpa using h
      simp only [loadParamEntries, List.getD_cons_succ]
      rw [ih (off + f.2.length) j hj]
      simp [List.take_succ_cons, Nat.add_assoc]

theorem paramChunkList_flatten (tmp : List Nat) :
    (paramChunkList tmp).flatten = tmp := by
  unfold paramChunkList
  by_cases hrem : tmp.length % MAX_CHUNK_SIZE > 0
  · rw [if_pos hrem, List.flatten_append, flatten_range_chunks]
    simp only [List.flatten_cons, List.flatten_nil, List.append_nil]
    exact List.take_append_drop _ _
  · rw [if_neg hrem, flatten_range_chunks]
    apply List.take_of_length_le
    simp only [MAX_CHUNK_SIZE] at hrem ⊢
    have hdm := Nat.div_add_mod tmp.length 26624
    omega

theorem paramChunkList_full_len (tmp : List Nat) :
    ∀ i, i + 1 < (paramChunkList tmp).length →
      ((paramChunkList tmp).getD i []).length = MAX_CHUNK_SIZE := by
  intro i hi
  have hfull : ∀ j, j < tmp.length / MAX_CHUNK_SIZE →
      ((List.range (tmp.length / MAX_CHUNK_SIZE)).map
        (fun k => (tmp.drop (k * MAX_CHUNK_SIZE)).take MAX_CHUNK_SIZE)).getD j []
      = (tmp.drop (j * MAX_CHUNK_SIZE)).take MAX_CHUNK_SIZE := by
    intro j hj
    rw [List.getD_eq_getElem?_getD, List.getElem?_map, List.getElem?_range hj]
    rfl
  have hlen : ∀ j, j < tmp.length / MAX_CHUNK_SIZE →
      ((tmp.drop (j * MAX_CHUNK_SIZE)).take MAX_CHUNK_SIZE).length = MAX_CHUNK_SIZE := by
    intro j hj
    rw [List.length_take, List.length_drop]
    have hj1 : (j + 1) * MAX_CHUNK_SIZE ≤ tmp.length := by
      rw [← Nat.le_div_iff_mul_le (by norm_num [MAX_CHUNK_SIZE])]
      omega
    simp only [MAX_CHUNK_SIZE] at hj1 ⊢
    omega
  unfold paramChunkList at hi ⊢
  by_cases hrem : tmp.length % MAX_CHUNK_SIZE > 0
  · rw [if_pos hrem] at hi ⊢
    have hilt : i < tmp.length / MAX_CHUNK_SIZE := by
      simp at hi
      omega
    rw [List.getD_append _ _ _ i (by simpa using hilt), hfull i hilt]
    exact hlen i hilt
  · rw [if_neg hrem] at hi ⊢
    have hilt : i < tmp.length / MAX_CHUNK_SIZE := by
      simp at hi
      omega
    rw [hfull i hilt]
    exact hlen i hilt

/-- Claim C3: after `loadParameterFiles`, entry `i` of the parameter header
has `Offset` equal to the sum of the sizes of files `0..i-1` and `Size`
equal to the length of file `i`; every chunk except possibly the last has
length exactly `MAX_CHUNK_SIZE`; and the chunk lengths sum to the total of
the file sizes. -/
theorem c3_parameter_invariants (files : List (List Nat × List Nat))
    (h32 : ((files.map (fun f => f.2.length)).sum) < 2 ^ 32) :
    (∀ i, i < files.length →
      ((loadParamEntries 0 files).getD i dfltEntry).Offset
        = ((files.map (fun f => f.2.length)).take i).sum
      ∧ ((loadParamEntries 0 files).getD i dfltEntry).Size
        = (files.getD i ([], [])).2.length)
    ∧ (∀ i, i + 1 < (paramChunkList (paramTmp files)).length →
      ((paramChunkList (paramTmp files)).getD i []).length = MAX_CHUNK_SIZE)
    ∧ ((paramChunkList (paramTmp files)).map List.length).sum
      = (files.map (fun f => f.2.length)).sum := by
  have hsum : ∀ i, ((files.map (fun f => f.2.length)).take i).sum
      ≤ (files.map (fun f => f.2.length)).sum := by
    intro i
    conv_rhs => rw [← List.take_append_drop i (files.map (fun f => f.2.length))]
    rw [List.sum_append]
    omega
  refine ⟨?_, paramChunkList_full_len (paramTmp files), ?_⟩
  · intro i hi
    rw [loadParamEntries_getD files 0 i hi]
    constructor
    · simp only [Nat.zero_add]
      exact Nat.mod_eq_of_lt (lt_of_le_of_lt (hsum i) h32)
    · apply Nat.mod_eq_of_lt
      apply lt_of_le_of_lt _ h32
      have hmem : (files.getD i ([], [])).2.length ∈ files.map (fun f => f.2.length) := by
        have hgd : (files.map (fun f => f.2.length)).getD i 0
            = (files.getD i ([], [])).2.length := by
          rw [List.getD_eq_getElem?_getD, List.getElem?_map,
            List.getElem?_eq_getElem hi]
          simp [List.getD_eq_getElem?_getD, List.getElem?_eq_getElem hi]
        rw [← hgd, List.getD_eq_getElem?_getD,
          List.getElem?_eq_getElem (by simpa using hi)]
        exact List.getElem_mem _
      exact List.single_le_sum (fun x _ => Nat.zero_le x) _ hmem
  · rw [← List.length_flatten, paramChunkList_flatten]
    simp only [paramTmp, List.length_flatten, List.map_map]
    congr 1

/-- Witness for C3 at two concrete parameter files. -/
theorem c3_witness :
    ((([([70], [1, 2]), ([71], [3])] : List (List Nat × List Nat)).map
        (fun f => f.2.length)).sum < 2 ^ 32)
    ∧ ((loadParamEntries 0 [([70], [1, 2]), ([71], [3])]).getD 1 dfltEntry).Offset = 2
    ∧ ((paramChunkList (paramTmp [([70], [1, 2]), ([71], [3])])).map List.length).sum
      = 3 := by
  refine ⟨by decide, ?_, ?_⟩
  · have h := (c3_parameter_invariants [([70], [1, 2]), ([71], [3])] (by decide)).1 1
      (by decide)
    exact h.1.trans (by decide)
  · have h := (c3_parameter_invariants [([70], [1, 2]), ([71], [3])] (by decide)).2.2
    exact h.trans (by decide)

theorem getPacketSize_len8 (D : List Nat) (hdec : D.length = BBHeaderSize) :
    GetPacketSize (D.take 2) = Except.ok (readU16 D 0) := by
  unfold GetPacketSize
  rw [if_neg (by rw [List.length_take, hdec]; norm_num [BBHeaderSize])]
  congr 1
  simp [readU16, List.getD_eq_getElem?_getD, List.getElem?_take]

theorem getPacketSize_take2 (D rest : List Nat) (hdec : D.length = BBHeaderSize) :
    GetPacketSize ((D ++ rest).take 2) = Except.ok (readU16 D 0) := by
  have ht2 : (D ++ rest).take 2 = D.take 2 :=
    List.take_append_of_le_length (by rw [hdec]; norm_num [BBHeaderSize])
  rw [ht2]
  exact getPacketSize_len8 D hdec

theorem charIteration_single (tc : PacketTypes) (env : Env)
    (hdrDec bodyDec : List Nat → List Nat) (r : List Nat) (st : LoginClient)
    (hrs : st.recvSize = 0)
    (hr8 : BBHeaderSize ≤ r.length)
    (hdec : (hdrDec ((overwrite st.recvData 0 r).take BBHeaderSize)).length = BBHeaderSize)
    (hsz : readU16 (hdrDec ((overwrite st.recvData 0 r).take BBHeaderSize)) 0 ≤ r.length) :
    charIteration tc env hdrDec bodyDec [r] st =
      dispatchAndClear tc env bodyDec
        { st with
          recvData := hdrDec ((overwrite st.recvData 0 r).take BBHeaderSize)
            ++ (overwrite st.recvData 0 r).drop BBHeaderSize,
          recvSize := r.length,
          packetSize := readU16 (hdrDec ((overwrite st.recvData 0 r).take BBHeaderSize)) 0 } := by
  obtain ⟨rd, rs, ps, gc, fl, gD, gS⟩ := st
  simp only at hrs hdec hsz ⊢
  subst hrs
  have hr0 : ¬ r.length = 0 := by
    have h8 : (8 : Nat) ≤ r.length := hr8
    omega
  have hHL : recvHeaderLoop hdrDec [r] ⟨rd, 0, ps, gc, fl, gD, gS⟩
      = some (RecvOutcome.ready
          ⟨hdrDec ((overwrite rd 0 r).take BBHeaderSize)
              ++ (overwrite rd 0 r).drop BBHeaderSize,
            0 + r.length,
            readU16 (hdrDec ((overwrite rd 0 r).take BBHeaderSize)) 0,
            gc, fl, gD, gS⟩ []) := by
    rw [recvHeaderLoop.eq_def]
    dsimp only
    rw [if_neg (by simp [BBHeaderSize])]
    rw [if_neg hr0, if_pos (by simpa using hr8)]
    rw [getPacketSize_take2 _ _ hdec]
    dsimp only
    rw [recvHeaderLoop.eq_def]
    dsimp only
    rw [if_pos (by simpa using hr8)]
  unfold charIteration
  rw [hHL]
  dsimp only
  rw [recvBodyLoop.eq_def]
  dsimp only
  rw [if_neg (by omega)]
  simp [Nat.zero_add]

theorem take_header_of_len8 (D rest : List Nat) (hdec : D.length = BBHeaderSize) :
    (D ++ rest).take BBHeaderSize = D := by
  rw [show BBHeaderSize = D.length from hdec.symm]
  exact List.take_left _ _

theorem take_header_append (l m t : List Nat) (hlen : BBHeaderSize ≤ l.length) :
    (l.take BBHeaderSize ++ m ++ t).take BBHeaderSize = l.take BBHeaderSize := by
  rw [List.append_assoc,
    List.take_append_of_le_length (by rw [List.length_take]; omega),
    List.take_take]
  simp

theorem dispatchAndClear_unknown (tc : PacketTypes) (env : Env)
    (bodyDec : List Nat → List Nat) (st2 : LoginClient)
    (hlen8 : BBHeaderSize ≤ st2.recvData.length)
    (hty : (parseBBHeader (st2.recvData.take BBHeaderSize)).PType ∉ handledTypes tc) :
    dispatchAndClear tc env bodyDec st2 =
      some (LoopResult.next
        { st2 with
          recvData := ZeroSlice
            (if BBHeaderSize < st2.packetSize then
              st2.recvData.take BBHeaderSize
                ++ bodyDec ((st2.recvData.take st2.packetSize).drop BBHeaderSize)
                ++ st2.recvData.drop st2.packetSize
             else st2.recvData) st2.recvSize,
          recvSize := 0, packetSize := 0 } []) := by
  unfold dispatchAndClear
  dsimp only
  by_cases hS : BBHeaderSize < st2.packetSize
  · rw [if_pos hS, if_pos hS]
    have hproc := processCharacterPacket_unknown tc env
      { st2 with recvData := st2.recvData.take BBHeaderSize
          ++ bodyDec ((st2.recvData.take st2.packetSize).drop BBHeaderSize)
          ++ st2.recvData.drop st2.packetSize }
      (by dsimp only
          rw [take_header_append _ _ _ hlen8]
          exact hty)
    rw [hproc]
  · rw [if_neg hS, if_neg hS]
    have hproc := processCharacterPacket_unknown tc env st2 hty
    rw [hproc]

/-- Claim C1 (counterexample): a frame whose decrypted size field is 3 —
smaller than the 8-byte BB header and not a multiple of the quantum — does
not close the connection: the iteration dispatches it and continues. -/
theorem c1_counterexample :
    resultContinues
      (charIteration tc0 env0 id id [[3, 0, 255, 0, 0, 0, 0, 0]] client0) = true := by
  decide

/-- Claim C1 (amended): the extracted size field is never validated —
`GetPacketSize` fails only when fewer than two bytes are present, and no
check against the header size, the quantum or the buffer capacity exists —
so a frame whose decrypted size is arbitrary (in particular 3) is
dispatched like any other and, when its type is unhandled, the connection
stays open and no reply is emitted. -/
theorem c1_no_size_validation (tc : PacketTypes) (env : Env)
    (hdrDec bodyDec : List Nat → List Nat) (r : List Nat) (st : LoginClient)
    (hrs : st.recvSize = 0)
    (hr8 : BBHeaderSize ≤ r.length)
    (hdec : (hdrDec ((overwrite st.recvData 0 r).take BBHeaderSize)).length = BBHeaderSize)
    (hsz : readU16 (hdrDec ((overwrite st.recvData 0 r).take BBHeaderSize)) 0 ≤ r.length)
    (hty : readU16 (hdrDec ((overwrite st.recvData 0 r).take BBHeaderSize)) 2
      ∉ handledTypes tc) :
    GetPacketSize ((hdrDec ((overwrite st.recvData 0 r).take BBHeaderSize)).take 2)
      = Except.ok (readU16 (hdrDec ((overwrite st.recvData 0 r).take BBHeaderSize)) 0)
    ∧ resultContinues (charIteration tc env hdrDec bodyDec [r] st) = true
    ∧ repliesAfter (charIteration tc env hdrDec bodyDec [r] st) = some [] := by
  refine ⟨getPacketSize_len8 _ hdec, ?_⟩
  rw [charIteration_single tc env hdrDec bodyDec r st hrs hr8 hdec hsz]
  rw [dispatchAndClear_unknown tc env bodyDec _
    (by dsimp only
        rw [List.length_append, hdec]
        omega)
    (by dsimp only
        rw [take_header_of_len8 _ _ hdec]
        exact hty)]
  exact ⟨rfl, rfl⟩

/-- Witness for the amended C1: the decrypted size 3 with unknown type 255
on a fresh client leaves the loop running with no replies. -/
theorem c1_witness :
    (readU16 (id ((overwrite client0.recvData 0 [3, 0, 255, 0, 0, 0, 0, 0]).take
        BBHeaderSize)) 0 ≤ ([3, 0, 255, 0, 0, 0, 0, 0] : List Nat).length)
    ∧ resultContinues
        (charIteration tc0 env0 id id [[3, 0, 255, 0, 0, 0, 0, 0]] client0) = true
    ∧ repliesAfter
        (charIteration tc0 env0 id id [[3, 0, 255, 0, 0, 0, 0, 0]] client0) = some [] := by
  have h := c1_no_size_validation tc0 env0 id id [3, 0, 255, 0, 0, 0, 0, 0] client0
    rfl (by decide) (by decide) (by decide) (by decide)
  exact ⟨by decide, h.2.1, h.2.2⟩

/-- Claim C6 (counterexample): when a single read delivers 16 bytes holding
an 8-byte frame (decrypted size 8) followed by 8 more bytes (starting with
99), the cleanup zeroes all 16 received bytes — not exactly the frame's
`size` bytes, which would have left the byte 99 at index 8 intact. -/
theorem c6_counterexample :
    bufAfter (charIteration tc0 env0 id id
        [[8, 0, 255, 0, 0, 0, 0, 0, 99, 0, 0, 0, 0, 0, 0, 0]] client0)
      ≠ some (ZeroSlice
          (overwrite (List.replicate 1024 0) 0
            [8, 0, 255, 0, 0, 0, 0, 0, 99, 0, 0, 0, 0, 0, 0, 0]) 8) := by
  decide

/-- Claim C6 (amended): after a frame is handled without error the loop
zeroes the first `recvSize` bytes of the buffer — the count of bytes
actually received, which is at least the frame's size field and can exceed
it when a read overshoots the frame — and resets both per-frame cursors
(`recvSize` and `packetSize`) to zero. -/
theorem c6_cleanup (tc : PacketTypes) (env : Env)
    (hdrDec bodyDec : List Nat → List Nat) (r : List Nat) (st : LoginClient)
    (hrs : st.recvSize = 0)
    (hr8 : BBHeaderSize ≤ r.length)
    (hdec : (hdrDec ((overwrite st.recvData 0 r).take BBHeaderSize)).length = BBHeaderSize)
    (hsz : readU16 (hdrDec ((overwrite st.recvData 0 r).take BBHeaderSize)) 0 ≤ r.length)
    (hty : readU16 (hdrDec ((overwrite st.recvData 0 r).take BBHeaderSize)) 2
      ∉ handledTypes tc) :
    charIteration tc env hdrDec bodyDec [r] st =
      some (LoopResult.next
        { st with
          recvData := ZeroSlice
            (if BBHeaderSize
                < readU16 (hdrDec ((overwrite st.recvData 0 r).take BBHeaderSize)) 0 then
              (hdrDec ((overwrite st.recvData 0 r).take BBHeaderSize)
                  ++ (overwrite st.recvData 0 r).drop BBHeaderSize).take BBHeaderSize
                ++ bodyDec (((hdrDec ((overwrite st.recvData 0 r).take BBHeaderSize)
                  ++ (overwrite st.recvData 0 r).drop BBHeaderSize).take
                    (readU16 (hdrDec ((overwrite st.recvData 0 r).take BBHeaderSize)) 0)).drop
                      BBHeaderSize)
                ++ (hdrDec ((overwrite st.recvData 0 r).take BBHeaderSize)
                  ++ (overwrite st.recvData 0 r).drop BBHeaderSize).drop
                    (readU16 (hdrDec ((overwrite st.recvData 0 r).take BBHeaderSize)) 0)
             else hdrDec ((overwrite st.recvData 0 r).take BBHeaderSize)
                ++ (overwrite st.recvData 0 r).drop BBHeaderSize)
            r.length,
          recvSize := 0, packetSize := 0 } []) := by
  rw [charIteration_single tc env hdrDec bodyDec r st hrs hr8 hdec hsz]
  rw [dispatchAndClear_unknown tc env bodyDec _
    (by dsimp only
        rw [List.length_append, hdec]
        omega)
    (by dsimp only
        rw [take_header_of_len8 _ _ hdec]
        exact hty)]

/-- Witness for the amended C6: the 16-byte read from the C6 scenario. -/
theorem c6_witness :
    (BBHeaderSize ≤ ([8, 0, 255, 0, 0, 0, 0, 0, 99, 0, 0, 0, 0, 0, 0, 0] : List Nat).length)
    ∧ charIteration tc0 env0 id id
        [[8, 0, 255, 0, 0, 0, 0, 0, 99, 0, 0, 0, 0, 0, 0, 0]] client0 =
      some (LoopResult.next
        { client0 with
          recvData := ZeroSlice
            (id ((overwrite client0.recvData 0
                [8, 0, 255, 0, 0, 0, 0, 0, 99, 0, 0, 0, 0, 0, 0, 0]).take BBHeaderSize)
              ++ (overwrite client0.recvData 0
                [8, 0, 255, 0, 0, 0, 0, 0, 99, 0, 0, 0, 0, 0, 0, 0]).drop BBHeaderSize)
            ([8, 0, 255, 0, 0, 0, 0, 0, 99, 0, 0, 0, 0, 0, 0, 0] : List Nat).length,
          recvSize := 0, packetSize := 0 } []) := by
  have h := c6_cleanup tc0 env0 id id
    [8, 0, 255, 0, 0, 0, 0, 0, 99, 0, 0, 0, 0, 0, 0, 0] client0
    rfl (by decide) (by decide) (by decide) (by decide)
  refine ⟨by decide, ?_⟩
  rw [h]
  congr 2

end Archon
